import Mathlib

/-!
Shallow embedding of `confluence_markdown_exporter/main.py` and proofs about it.

Python strings are modelled as `List Char`; machine side effects (file writes,
log lines) are modelled as explicit state; fallible code returns `Except`.
-/

/-- Convert a Lean string literal to the `List Char` string model. -/
def chars (s : String) : List Char := s.data

/-- Decide whether `pat` is a leading segment of `s` (Python `str.startswith`). -/
def isPref : List Char → List Char → Bool
  | [], _ => true
  | _ :: _, [] => false
  | p :: ps, c :: cs => if p = c then isPref ps cs else false

/-- Decide whether `pat` occurs as a contiguous substring of `s` (Python `pat in s`). -/
def containsSub : List Char → List Char → Bool
  | pat, [] => isPref pat []
  | pat, c :: s => isPref pat (c :: s) || containsSub pat s

/-- Python `s.replace(pat, rep)`: leftmost, non-overlapping replacement of every
occurrence of `pat` by `rep`.  Only used with non-empty `pat`. -/
def replaceAll (pat rep : List Char) : List Char → List Char
  | [] => []
  | c :: s =>
    if isPref pat (c :: s) then rep ++ replaceAll pat rep (s.drop (pat.length - 1))
    else c :: replaceAll pat rep s
termination_by l => l.length
decreasing_by
  · simp only [List.length_drop, List.length_cons]; omega
  · simp only [List.length_cons]; omega

/-- The substring literal `..` checked by `Exporter.__sanitize_filename`. -/
def dotdot : List Char := chars ("..")

/-- The substring literal `/` checked by `Exporter.__sanitize_filename`. -/
def slashc : List Char := chars ("/")

/-- The replacement literal `_` used by `Exporter.__sanitize_filename`. -/
def uscore : List Char := chars ("_")

/-- Embedding of `Exporter.__sanitize_filename` including its warning log:
for each invalid pattern in `["..", "/"]`, if the pattern occurs in the current
name, log one warning (recorded here as the pattern itself) and replace every
occurrence by `_`.  Returns the final name together with the list of warnings. -/
def sanitizeRun (document_name_raw : List Char) : List Char × List (List Char) :=
  [dotdot, slashc].foldl
    (fun acc invalid =>
      if containsSub invalid acc.1 then (replaceAll invalid uscore acc.1, acc.2 ++ [invalid])
      else acc)
    (document_name_raw, [])

/-- The string returned by `Exporter.__sanitize_filename`. -/
def sanitize_filename (document_name_raw : List Char) : List Char :=
  (sanitizeRun document_name_raw).1

/-- One step of POSIX `os.path.join`: append one further component `p` to the
accumulated path `acc`, following CPython `posixpath.join`. -/
def ospath_join_one (acc p : List Char) : List Char :=
  if p.head? = some '/' then p
  else if acc = [] then p
  else if acc.getLast? = some '/' then acc ++ p
  else acc ++ '/' :: p

/-- POSIX `os.path.join(base, *parts)`. -/
def ospath_join (base : List Char) (parts : List (List Char)) : List Char :=
  parts.foldl ospath_join_one base

/-- POSIX `os.path.dirname`, following CPython `posixpath.dirname`: everything
up to the last `/`, with trailing slashes stripped unless the result consists
only of slashes. -/
def ospath_dirname (p : List Char) : List Char :=
  let head := (p.reverse.dropWhile (fun c => c ≠ '/')).reverse
  if head.isEmpty || head.all (fun c => c = '/') then head
  else (head.reverse.dropWhile (fun c => c = '/')).reverse

/-- The relevant fields of a page returned by `get_page_by_id(id, expand="body.storage")`:
`page["id"]`, `page["title"]` and `page["body"]["storage"]["value"]`. -/
structure PageData where
  id : Nat
  title : List Char
  body : List Char

/-- Embedding of the `PageDescription` TypedDict of `main.py`. -/
structure PageDescription where
  sanitized_filename : List Char
  sanitized_parents : List (List Char)
  document_name : List Char
  page_location : List (List Char)
  page_filename : List Char
  page_output_dir : List Char

/-- Embedding of `Exporter.__get_descr`. -/
def get_descr (out_dir : List Char) (page : PageData) (parents : List (List Char))
    (is_leaf_node : Bool) : PageDescription :=
  let extension := chars (".html")
  let document_name := if is_leaf_node then page.title ++ extension else chars ("index") ++ extension
  let sanitized_filename := sanitize_filename document_name
  let sanitized_parents := parents.map sanitize_filename
  let page_location := sanitized_parents ++ [sanitized_filename]
  let page_filename := ospath_join out_dir page_location
  let page_output_dir := ospath_dirname page_filename
  ⟨sanitized_filename, sanitized_parents, document_name, page_location, page_filename,
    page_output_dir⟩

/-- Embedding of `Exporter.__should_skip_download`, exactly as written in the
source: the body is a bare `return True`. -/
def should_skip_download (_page_id : Nat) (_last_modified : List Char) : Bool :=
  true

/-- One attachment record from `get_attachments_from_content`: its `title` and
its `_links.download` path. -/
structure Attachment where
  title : List Char
  download : List Char

/-- The observable part of a `requests.get` response: status code and body. -/
structure HttpResp where
  status : Nat
  body : List Char

/-- Result of the attachment loop of `Exporter.__download_page`: the files
written (path and body), the warnings logged, and whether `raise_for_status`
aborted the loop. -/
structure AttachResult where
  files : List (List Char × List Char)
  warnings : List (List Char)
  aborted : Bool

/-- Embedding of `urllib.parse.urlunparse((scheme, netloc, path, None, None, None))`. -/
def urlunparse3 (scheme netloc path : List Char) : List Char :=
  let p := if path ≠ [] ∧ path.head? ≠ some '/' then '/' :: path else path
  let u := '/' :: '/' :: (netloc ++ p)
  if scheme ≠ [] then scheme ++ ':' :: u else u

/-- The attachment download URL built in `Exporter.__download_page`:
`urlunparse((scheme, netloc, "/wiki/" + download.lstrip("/"), None, None, None))`. -/
def attUrl (scheme netloc : List Char) (a : Attachment) : List Char :=
  urlunparse3 scheme netloc (chars ("/wiki/") ++ a.download.dropWhile (fun c => c = '/'))

/-- The warning line logged for a 404 attachment:
`"Attachment {} not found (404)!".format(att_url)`. -/
def warn404 (url : List Char) : List Char :=
  chars ("Attachment ") ++ url ++ chars (" not found (404)!")

/-- The attachment folder constant `ATTACHMENT_FOLDER_NAME`. -/
def attachment_folder_name : List Char := chars ("attachments")

/-- The local path an attachment is written to:
`os.path.join(page_output_dir, ATTACHMENT_FOLDER_NAME, sanitized_name)`. -/
def attPath (page_output_dir : List Char) (a : Attachment) : List Char :=
  ospath_join page_output_dir [attachment_folder_name, sanitize_filename a.title]

/-- Embedding of the attachment loop of `Exporter.__download_page` (lines
120-146): for each attachment, build its URL and sanitized local path, perform
the GET, and on status `>= 400` either log a warning and continue (404) or
abort the loop (`raise_for_status`); otherwise write the body. -/
def downloadAtts (http : List Char → HttpResp) (scheme netloc page_output_dir : List Char) :
    List Attachment → AttachResult
  | [] => ⟨[], [], false⟩
  | a :: rest =>
    let url := attUrl scheme netloc a
    let path := attPath page_output_dir a
    let r := http url
    if 400 ≤ r.status then
      if r.status = 404 then
        let R := downloadAtts http scheme netloc page_output_dir rest
        ⟨R.files, warn404 url :: R.warnings, R.aborted⟩
      else ⟨[], [], true⟩
    else
      let R := downloadAtts http scheme netloc page_output_dir rest
      ⟨(path, r.body) :: R.files, R.warnings, R.aborted⟩

/-- The configuration held by an `Exporter` instance: output directory, the
scheme and netloc of the parsed base URL, and the attachment-skip flag. -/
structure ExporterCfg where
  out_dir : List Char
  scheme : List Char
  netloc : List Char
  no_attach : Bool

/-- The black-box Confluence API and HTTP transport consumed by the exporter.
`get_page_properties` returns the `version.when` field of each result. -/
structure ConfluenceApi where
  get_page_by_id : Nat → PageData
  get_page_properties : Nat → List (List Char)
  get_child_id_list : Nat → List Nat
  get_attachments_from_content : Nat → List Attachment
  http_get : List Char → HttpResp

/-- The mutable state threaded through a traversal: the seen-set of page ids,
the files written so far, and the warnings logged so far. -/
structure TravState where
  seen : List Nat
  files : List (List Char × List Char)
  warnings : List (List Char)

/-- The ways embedded code can raise: the two `ExportException` sites, the
attribute-lookup failures (the undefined `__update_index`, `startswith` on
`None`, and `get` on a `NavigableString`), `raise_for_status`, `results[0]` on
an empty list, and exhaustion of the recursion fuel (modelling non-termination). -/
inductive PyErr where
  | exportDuplicatePageId
  | exportNoHomepage (key : List Char)
  | attributeErrorUpdateIndex
  | attributeErrorNoneType
  | attributeErrorNavigableString
  | httpStatusError
  | indexError
  | nonTermination
deriving DecidableEq

/-- Embedding of `Exporter.__download_page`: write the page body to the derived
path, run the attachment loop unless disabled, insert the page id into the
seen-set, then call `self.__update_index` — a method the `Exporter` class does
not define, so the final statement always raises an attribute-lookup error. -/
def download_page (api : ConfluenceApi) (cfg : ExporterCfg) (st : TravState) (page : PageData)
    (parents : List (List Char)) (is_leaf_node : Bool) (_when_modified : List Char) :
    TravState × Except PyErr Unit :=
  let content := page.body
  let descr := get_descr cfg.out_dir page parents is_leaf_node
  let files1 := st.files ++ [(descr.page_filename, content)]
  if cfg.no_attach = false then
    let ret := api.get_attachments_from_content page.id
    let R := downloadAtts api.http_get cfg.scheme cfg.netloc descr.page_output_dir ret
    if R.aborted then
      (⟨st.seen, files1 ++ R.files, st.warnings ++ R.warnings⟩, .error .httpStatusError)
    else
      (⟨st.seen.insert page.id, files1 ++ R.files, st.warnings ++ R.warnings⟩,
        .error .attributeErrorUpdateIndex)
  else
    (⟨st.seen.insert page.id, files1, st.warnings⟩, .error .attributeErrorUpdateIndex)

/-- The `for child_id in child_ids` loop at the end of `Exporter.__dump_page`:
run `step` (the recursive call at the next fuel level) on each child in order,
propagating any raised error. -/
def dumpChildren (step : Nat → List (List Char) → TravState → Except PyErr TravState) :
    List Nat → List (List Char) → TravState → Except PyErr TravState
  | [], _, st => .ok st
  | child_id :: rest, parents, st =>
    match step child_id parents st with
    | .error e => .error e
    | .ok st1 => dumpChildren step rest parents st1

/-- Embedding of `Exporter.__dump_page`, with explicit fuel for the recursion
depth: raise on a seen id, fetch the page, its modification time and its child
list, derive the description, download only when `__should_skip_download(...) == False`,
then recurse into the children with the extended parent chain. -/
def dumpPage (api : ConfluenceApi) (cfg : ExporterCfg) :
    Nat → Nat → List (List Char) → TravState → Except PyErr TravState
  | 0 => fun _ _ _ => .error .nonTermination
  | fuel + 1 => fun src_id parents st =>
    if src_id ∈ st.seen then .error .exportDuplicatePageId
    else
      let page := api.get_page_by_id src_id
      let page_title := page.title
      let page_id := page.id
      match (api.get_page_properties page_id).head? with
      | none => .error .indexError
      | some when_modified =>
        let child_ids := api.get_child_id_list page_id
        let is_leaf_node := child_ids.isEmpty
        let page_descr := get_descr cfg.out_dir page parents is_leaf_node
        let afterDl : Except PyErr TravState :=
          if should_skip_download page_id when_modified = false then
            let r := download_page api cfg st page parents is_leaf_node when_modified
            match r.2 with
            | .error e => .error e
            | .ok _ => .ok r.1
          else .ok st
        match afterDl with
        | .error e => .error e
        | .ok st1 =>
          dumpChildren (dumpPage api cfg fuel) child_ids
            (page_descr.sanitized_parents ++ [page_title]) st1

/-- One space record of the `get_all_spaces` response: its key and the id of
its homepage, when one is declared. -/
structure SpaceRec where
  key : List Char
  homepage : Option Nat

/-- The `get_all_spaces` response: its `size` field and its `results` list. -/
structure SpacesResp where
  size : Nat
  results : List SpaceRec

/-- The `for space in ret["results"]` loop of `Exporter.dump_all_spaces`: a
space without a homepage raises `ExportException`; otherwise recurse from its
homepage with the space key as the initial parent chain. -/
def dumpSpaces (api : ConfluenceApi) (cfg : ExporterCfg) (fuel : Nat) :
    List SpaceRec → TravState → Except PyErr TravState
  | [], st => .ok st
  | space :: rest, st =>
    match space.homepage with
    | none => .error (.exportNoHomepage space.key)
    | some homepage_id =>
      match dumpPage api cfg fuel homepage_id [space.key] st with
      | .error e => .error e
      | .ok st1 => dumpSpaces api cfg fuel rest st1

/-- Embedding of `Exporter.dump_all_spaces`: when the response `size` is zero
an error line is logged (first component) but nothing is raised; then every
result space is processed in order. -/
def dump_all_spaces (api : ConfluenceApi) (cfg : ExporterCfg) (fuel : Nat) (resp : SpacesResp)
    (st : TravState) : List (List Char) × Except PyErr TravState :=
  ((if resp.size = 0 then [chars ("No spaces found in confluence. Please check credentials")]
    else []),
   dumpSpaces api cfg fuel resp.results st)

/-- Embedding of the `__target_space_key` computation in `Exporter.__init__`:
`space if space.startswith("~") else "~" + space`.  When the optional space
argument is absent (`None`), the attribute lookup `None.startswith` raises. -/
def exporter_init_space_key : Option (List Char) → Except PyErr (List Char)
  | none => .error .attributeErrorNoneType
  | some space => .ok (if space.head? = some '~' then space else '~' :: space)

/-- Embedding of the branch in `Exporter.dump`: `dump_all_spaces` is invoked
exactly when `self.__target_space_key` is falsy, that is, the empty string. -/
def dump_uses_all_spaces (target_space_key : List Char) : Bool :=
  target_space_key.isEmpty

/-- A parsed HTML node as seen through BeautifulSoup: an element (`Tag`) with
a tag name, an attribute list and children, or a text node (`NavigableString`). -/
inductive HNode where
  | elem (tag : List Char) (attrs : List (List Char × List Char)) (children : List HNode)
  | text (s : List Char)

/-- First-match association lookup in an attribute list (`Tag.get`). -/
def assocLookup (key : List Char) : List (List Char × List Char) → Option (List Char)
  | [] => none
  | (k, v) :: rest => if k = key then some v else assocLookup key rest

/-- The attribute key read from the first child of an `ac:image` tag. -/
def ri_filename_key : List Char := chars ("ri:filename")

/-- The tag name matched by `soup.find_all("ac:image")`. -/
def ac_image_tag : List Char := chars ("ac:image")

/-- The `url` variable of `Converter.__convert_atlassian_html`: `None` when the
tag has no children, otherwise `child.get("ri:filename", None)` on the first
child.  A `Tag` first child answers its attribute lookup; a `NavigableString`
first child has no `get` method, so the lookup raises an attribute error that
aborts the whole conversion pass. -/
def firstChildFilename : List HNode → Except PyErr (Option (List Char))
  | [] => .ok none
  | HNode.elem _ attrs _ :: _ => .ok (assocLookup ri_filename_key attrs)
  | HNode.text _ :: _ => .error .attributeErrorNavigableString

mutual

/-- Effect of `Converter.__convert_atlassian_html` on a single node of the
`find_all("ac:image")` pre-order iteration: an `ac:image` whose first child is
a text node raises; one whose first child carries a filename is replaced by an
`img` whose `src` and `alt` are `os.path.join(ATTACHMENT_FOLDER_NAME, url)`,
followed by an inserted `br` — its detached subtree is still iterated by the
pre-collected `find_all` list, so an error inside it still propagates, while
its rewrites are discarded with the subtree; any other element keeps its tag
and attributes and has its children rewritten in place. -/
def convertOne : HNode → Except PyErr (List HNode)
  | HNode.text s => .ok [HNode.text s]
  | HNode.elem tag attrs children =>
    if tag = ac_image_tag then
      match firstChildFilename children with
      | .error e => .error e
      | .ok (some url) =>
        let srcurl := ospath_join attachment_folder_name [url]
        match convertNodes children with
        | .error e => .error e
        | .ok _ =>
          .ok [HNode.elem (chars ("img")) [(chars ("src"), srcurl), (chars ("alt"), srcurl)] [],
            HNode.elem (chars ("br")) [] []]
      | .ok none =>
        match convertNodes children with
        | .error e => .error e
        | .ok cs => .ok [HNode.elem tag attrs cs]
    else
      match convertNodes children with
      | .error e => .error e
      | .ok cs => .ok [HNode.elem tag attrs cs]

/-- Effect of `Converter.__convert_atlassian_html` on a list of sibling nodes,
in document order, propagating a raised attribute error. -/
def convertNodes : List HNode → Except PyErr (List HNode)
  | [] => .ok []
  | n :: rest =>
    match convertOne n with
    | .error e => .error e
    | .ok ns =>
      match convertNodes rest with
      | .error e => .error e
      | .ok rs => .ok (ns ++ rs)

end

/-- A concrete API whose page 1 reports itself as its only child: the shape of
a cyclic hierarchy reported by the service. -/
def apiCyc : ConfluenceApi where
  get_page_by_id := fun i => ⟨i, chars ("Loop"), chars ("body")⟩
  get_page_properties := fun _ => [chars ("2024-01-01T00:00:00.000Z")]
  get_child_id_list := fun _ => [1]
  get_attachments_from_content := fun _ => []
  http_get := fun _ => ⟨200, []⟩

/-- A concrete API with a single childless page 1. -/
def apiOne : ConfluenceApi where
  get_page_by_id := fun i => ⟨i, chars ("Home"), chars ("content")⟩
  get_page_properties := fun _ => [chars ("2024-01-01T00:00:00.000Z")]
  get_child_id_list := fun _ => []
  get_attachments_from_content := fun _ => []
  http_get := fun _ => ⟨200, []⟩

/-- A concrete exporter configuration. -/
def cfgW : ExporterCfg := ⟨chars ("out"), chars ("https"), chars ("wiki.example"), true⟩

/-- The empty traversal state. -/
def st0 : TravState := ⟨[], [], []⟩

/-- A concrete first child of an `ac:image` tag carrying a clean filename. -/
def childW : List HNode :=
  [HNode.elem (chars ("ri:attachment")) [(ri_filename_key, chars ("x.png"))] []]

example : sanitize_filename (chars ("index.html")) = chars ("index.html") := by decide
example : containsSub dotdot (chars ("a../b")) = true := by decide
example : ospath_join (chars ("out")) [chars ("A"), chars ("b.html")] = chars ("out/A/b.html") := by
  decide
example : ospath_join (chars ("attachments")) [chars ("/x")] = chars ("/x")  := by decide
example : ospath_dirname (chars ("out/A/b.html")) = chars ("out/A")  := by decide
example : dumpPage apiOne cfgW 1 1 [chars ("S")] st0 = .ok st0 := by rfl
example : dumpPage apiCyc cfgW 3 1 [chars ("S")] st0 = .error .nonTermination := by rfl
example :
    convertNodes [HNode.elem ac_image_tag []
      [HNode.elem (chars ("ri:attachment")) [(ri_filename_key, chars ("x.png"))] []]] =
    .ok [HNode.elem (chars ("img"))
      [(chars ("src"), chars ("attachments/x.png")), (chars ("alt"), chars ("attachments/x.png"))] [],
     HNode.elem (chars ("br")) [] []] := by rfl

example :
    convertNodes [HNode.elem ac_image_tag [] [HNode.text (chars (" "))]]
      = .error .attributeErrorNavigableString := by rfl

theorem dotdot_eq : dotdot = ['.', '.'] := rfl

theorem slashc_eq : slashc = ['/'] := rfl

theorem uscore_append (X : List Char) : uscore ++ X = '_' :: X := rfl

theorem containsSub_cons (pat : List Char) (c : Char) (s : List Char) :
    containsSub pat (c :: s) = (isPref pat (c :: s) || containsSub pat s) := rfl

theorem replaceAll_nil (pat rep : List Char) : replaceAll pat rep [] = [] := by
  simp [replaceAll]

theorem replaceAll_cons (pat rep : List Char) (c : Char) (s : List Char) :
    replaceAll pat rep (c :: s) =
      if isPref pat (c :: s) then rep ++ replaceAll pat rep (s.drop (pat.length - 1))
      else c :: replaceAll pat rep s := by
  rw [replaceAll]

theorem replaceAll_id_of_not_contains (pat rep : List Char) :
    ∀ s, containsSub pat s = false → replaceAll pat rep s = s := by
  intro s
  induction s with
  | nil => intro _; exact replaceAll_nil pat rep
  | cons c t ih =>
    intro h
    rw [containsSub_cons, Bool.or_eq_false_iff] at h
    rw [replaceAll_cons, if_neg (by simp [h.1]), ih h.2]

theorem replaceAll_dd_head (s r : List Char)
    (h : replaceAll dotdot uscore s = '.' :: r) : ∃ t, s = '.' :: t := by
  match s with
  | [] =>
    rw [replaceAll_nil] at h
    exact absurd h (by simp)
  | c :: t =>
    rw [replaceAll_cons] at h
    by_cases hp : isPref dotdot (c :: t) = true
    · rw [if_pos hp, uscore_append] at h
      rw [List.cons.injEq] at h
      exact absurd h.1 (by decide)
    · rw [if_neg hp, List.cons.injEq] at h
      exact ⟨t, by rw [h.1]⟩

theorem containsSub_dd_replaceAll_aux :
    ∀ n s, s.length ≤ n → containsSub dotdot (replaceAll dotdot uscore s) = false := by
  intro n
  induction n with
  | zero =>
    intro s hs
    have : s = [] := List.length_eq_zero.mp (Nat.le_zero.mp hs)
    subst this
    rw [replaceAll_nil]; decide
  | succ n ih =>
    intro s hs
    match s with
    | [] => rw [replaceAll_nil]; decide
    | c :: t =>
      rw [replaceAll_cons]
      by_cases hp : isPref dotdot (c :: t) = true
      · rw [if_pos hp, uscore_append, containsSub_cons]
        have hA : isPref dotdot ('_' :: replaceAll dotdot uscore (t.drop (dotdot.length - 1)))
            = false := by
          rw [dotdot_eq]; simp [isPref]
        rw [hA, Bool.false_or]
        refine ih (t.drop (dotdot.length - 1)) ?_
        have ht : t.length ≤ n := by
          have := List.length_cons c t ▸ hs
          omega
        calc (t.drop (dotdot.length - 1)).length ≤ t.length := by
              rw [List.length_drop]; omega
          _ ≤ n := ht
      · rw [if_neg hp, containsSub_cons]
        have ht : t.length ≤ n := by
          have := List.length_cons c t ▸ hs
          omega
        rw [ih t ht, Bool.or_false]
        cases hR : replaceAll dotdot uscore t with
        | nil =>
          rw [dotdot_eq]
          simp [isPref]
        | cons r0 R' =>
          rw [dotdot_eq]
          by_cases hc : c = '.'
          · subst hc
            by_cases hr0 : r0 = '.'
            · exfalso
              subst hr0
              obtain ⟨t', ht'⟩ := replaceAll_dd_head t R' hR
              apply hp
              rw [ht', dotdot_eq]
              simp [isPref]
            · simp [isPref, Ne.symm hr0]
          · simp [isPref, Ne.symm hc]

theorem replaceAll_slash_eq_map :
    ∀ s, replaceAll slashc uscore s = s.map (fun c => if c = '/' then '_' else c) := by
  intro s
  induction s with
  | nil => rw [replaceAll_nil]; rfl
  | cons c t ih =>
    rw [replaceAll_cons]
    by_cases hc : c = '/'
    · subst hc
      rw [if_pos (by simp [slashc_eq, isPref])]
      have hdrop : t.drop (slashc.length - 1) = t := by rw [slashc_eq]; rfl
      rw [hdrop, uscore_append, ih]
      simp
    · rw [if_neg (by rw [slashc_eq]; simp [isPref, Ne.symm hc]), ih]
      simp [hc]

theorem containsSub_slash_of_all_ne :
    ∀ l : List Char, (∀ c ∈ l, c ≠ '/') → containsSub slashc l = false := by
  intro l
  induction l with
  | nil => intro _; decide
  | cons c t ih =>
    intro h
    rw [containsSub_cons]
    have hc : c ≠ '/' := h c (by simp)
    have h1 : isPref slashc (c :: t) = false := by rw [slashc_eq]; simp [isPref, Ne.symm hc]
    rw [h1, Bool.false_or]
    exact ih (fun d hd => h d (by simp [hd]))

theorem isPref_dot_map (t : List Char) :
    isPref ['.'] (t.map (fun c => if c = '/' then '_' else c)) = isPref ['.'] t := by
  cases t with
  | nil => rfl
  | cons d t' =>
    by_cases hd : d = '/'
    · subst hd; simp [isPref]
    · simp only [List.map_cons, if_neg hd]
      by_cases h : ('.' : Char) = d <;> simp [isPref, h]

theorem isPref_dd_map (l : List Char) :
    isPref dotdot (l.map (fun c => if c = '/' then '_' else c)) = isPref dotdot l := by
  cases l with
  | nil => rfl
  | cons c t =>
    by_cases hc : c = '/'
    · subst hc; simp [dotdot_eq, isPref]
    · simp only [List.map_cons, if_neg hc, dotdot_eq]
      show (if ('.' : Char) = c then isPref ['.'] (t.map _) else false)
          = (if ('.' : Char) = c then isPref ['.'] t else false)
      rw [isPref_dot_map]

theorem containsSub_dd_map (l : List Char) :
    containsSub dotdot (l.map (fun c => if c = '/' then '_' else c)) = containsSub dotdot l := by
  induction l with
  | nil => rfl
  | cons c t ih =>
    have h := isPref_dd_map (c :: t)
    rw [List.map_cons] at h
    rw [List.map_cons, containsSub_cons, containsSub_cons, ih, h]

theorem sanitizeRun_eq (s : List Char) :
    sanitizeRun s =
      (replaceAll slashc uscore (replaceAll dotdot uscore s),
       (if containsSub dotdot s then [dotdot] else [])
         ++ (if containsSub slashc (replaceAll dotdot uscore s) then [slashc] else [])) := by
  unfold sanitizeRun
  simp only [List.foldl_cons, List.foldl_nil]
  by_cases h1 : containsSub dotdot s = true
  · by_cases h2 : containsSub slashc (replaceAll dotdot uscore s) = true
    · simp [h1, h2]
    · have h2' : containsSub slashc (replaceAll dotdot uscore s) = false :=
        Bool.eq_false_iff.mpr h2
      simp [h1, h2', replaceAll_id_of_not_contains slashc uscore _ h2']
  · have h1' : containsSub dotdot s = false := Bool.eq_false_iff.mpr h1
    have hid : replaceAll dotdot uscore s = s :=
      replaceAll_id_of_not_contains dotdot uscore s h1'
    rw [hid]
    by_cases h2 : containsSub slashc s = true
    · simp [h1', h2]
    · have h2' : containsSub slashc s = false := Bool.eq_false_iff.mpr h2
      simp [h1', h2', replaceAll_id_of_not_contains slashc uscore s h2']

theorem sanitize_filename_eq (s : List Char) :
    sanitize_filename s = replaceAll slashc uscore (replaceAll dotdot uscore s) := by
  unfold sanitize_filename
  rw [sanitizeRun_eq]

theorem sanitize_no_dotdot (s : List Char) :
    containsSub dotdot (sanitize_filename s) = false := by
  rw [sanitize_filename_eq, replaceAll_slash_eq_map, containsSub_dd_map]
  exact containsSub_dd_replaceAll_aux s.length s le_rfl

theorem sanitize_no_slash (s : List Char) :
    containsSub slashc (sanitize_filename s) = false := by
  rw [sanitize_filename_eq, replaceAll_slash_eq_map]
  apply containsSub_slash_of_all_ne
  intro c hc
  obtain ⟨a, _, ha⟩ := List.mem_map.mp hc
  rw [← ha]
  by_cases hA : a = '/' <;> simp [hA]

theorem sanitize_idem_core (s : List Char) :
    sanitize_filename (sanitize_filename s) = sanitize_filename s := by
  have h1 := sanitize_no_dotdot s
  have h2 := sanitize_no_slash s
  show (sanitizeRun (sanitize_filename s)).1 = sanitize_filename s
  rw [sanitizeRun_eq]
  exact (congrArg (replaceAll slashc uscore)
      (replaceAll_id_of_not_contains dotdot uscore _ h1)).trans
    (replaceAll_id_of_not_contains slashc uscore _ h2)

theorem dumpChildren_unchanged
    (step : Nat → List (List Char) → TravState → Except PyErr TravState)
    (hstep : ∀ c p s, step c p s = .ok s ∨ ∃ e, step c p s = .error e) :
    ∀ cs p s, dumpChildren step cs p s = .ok s
      ∨ ∃ e, dumpChildren step cs p s = .error e := by
  intro cs
  induction cs with
  | nil => intro p s; exact Or.inl rfl
  | cons c rest ih =>
    intro p s
    rcases hstep c p s with h | ⟨e, h⟩
    · have hred : dumpChildren step (c :: rest) p s = dumpChildren step rest p s := by
        simp [dumpChildren, h]
      rw [hred]
      exact ih p s
    · exact Or.inr ⟨e, by simp [dumpChildren, h]⟩

theorem dumpPage_unchanged (api : ConfluenceApi) (cfg : ExporterCfg) :
    ∀ fuel src parents st,
      dumpPage api cfg fuel src parents st = .ok st
      ∨ ∃ e, dumpPage api cfg fuel src parents st = .error e := by
  intro fuel
  induction fuel with
  | zero => intro src p st; exact Or.inr ⟨.nonTermination, rfl⟩
  | succ n ih =>
    intro src p st
    by_cases hseen : src ∈ st.seen
    · exact Or.inr ⟨.exportDuplicatePageId, by simp [dumpPage, hseen]⟩
    · cases hw : (api.get_page_properties (api.get_page_by_id src).id).head? with
      | none => exact Or.inr ⟨.indexError, by simp [dumpPage, hseen, hw]⟩
      | some w =>
        have hred : dumpPage api cfg (n + 1) src p st
            = dumpChildren (dumpPage api cfg n)
                (api.get_child_id_list (api.get_page_by_id src).id)
                ((get_descr cfg.out_dir (api.get_page_by_id src) p
                    (api.get_child_id_list (api.get_page_by_id src).id).isEmpty).sanitized_parents
                  ++ [(api.get_page_by_id src).title]) st := by
          simp [dumpPage, hseen, hw, should_skip_download]
        rw [hred]
        exact dumpChildren_unchanged (dumpPage api cfg n) (fun c pp ss => ih c pp ss) _ _ _

theorem dumpPage_cyc (cfg : ExporterCfg) :
    ∀ fuel parents files warns,
      dumpPage apiCyc cfg fuel 1 parents ⟨[], files, warns⟩ = .error .nonTermination := by
  intro fuel
  induction fuel with
  | zero => intro p f w; rfl
  | succ n ih =>
    intro p f w
    have hred : dumpPage apiCyc cfg (n + 1) 1 p ⟨[], f, w⟩
        = dumpChildren (dumpPage apiCyc cfg n) [1]
            ((get_descr cfg.out_dir (apiCyc.get_page_by_id 1) p false).sanitized_parents
              ++ [(apiCyc.get_page_by_id 1).title]) ⟨[], f, w⟩ := by
      simp [dumpPage, apiCyc, should_skip_download]
    rw [hred]
    have hstep := ih ((get_descr cfg.out_dir (apiCyc.get_page_by_id 1) p false).sanitized_parents
      ++ [(apiCyc.get_page_by_id 1).title]) f w
    simp [dumpChildren, hstep]

theorem dumpSpaces_append_noHomepage (api : ConfluenceApi) (cfg : ExporterCfg) (fuel : Nat)
    (key : List Char) (rest : List SpaceRec) :
    ∀ pre st st', dumpSpaces api cfg fuel pre st = .ok st' →
      dumpSpaces api cfg fuel (pre ++ ⟨key, none⟩ :: rest) st
        = .error (.exportNoHomepage key) := by
  intro pre
  induction pre with
  | nil => intro st st' _; rfl
  | cons sp pre' ih =>
    intro st st' h
    cases hh : sp.homepage with
    | none => simp [dumpSpaces, hh] at h
    | some hid =>
      cases hd : dumpPage api cfg fuel hid [sp.key] st with
      | error e => simp [dumpSpaces, hh, hd] at h
      | ok st1 =>
        have h' : dumpSpaces api cfg fuel pre' st1 = .ok st' := by
          simpa [dumpSpaces, hh, hd] using h
        simpa [dumpSpaces, hh, hd] using ih st1 st' h'

theorem ospath_join_attachments (url : List Char) (h : url.head? ≠ some '/') :
    ospath_join attachment_folder_name [url] = attachment_folder_name ++ '/' :: url := by
  unfold ospath_join
  simp only [List.foldl_cons, List.foldl_nil]
  unfold ospath_join_one
  rw [if_neg h, if_neg (by decide : ¬(attachment_folder_name = [])),
    if_neg (by decide : ¬(attachment_folder_name.getLast? = some '/'))]

theorem convertNodes_cons (n : HNode) (rest : List HNode) (ns rs : List HNode)
    (hn : convertOne n = .ok ns) (hrest : convertNodes rest = .ok rs) :
    convertNodes (n :: rest) = .ok (ns ++ rs) := by
  simp [convertNodes, hn, hrest]

theorem convertNodes_cons_error (n : HNode) (rest : List HNode) (e : PyErr)
    (hn : convertOne n = .error e) :
    convertNodes (n :: rest) = .error e := by
  simp [convertNodes, hn]

theorem convertOne_acimage_some (attrs : List (List Char × List Char)) (children : List HNode)
    (url : List Char) (cs : List HNode)
    (h : firstChildFilename children = .ok (some url))
    (hcs : convertNodes children = .ok cs) :
    convertOne (HNode.elem ac_image_tag attrs children)
      = .ok [HNode.elem (chars ("img"))
          [(chars ("src"), ospath_join attachment_folder_name [url]),
           (chars ("alt"), ospath_join attachment_folder_name [url])] [],
         HNode.elem (chars ("br")) [] []] := by
  simp [convertOne, h, hcs]

theorem convertOne_acimage_none (attrs : List (List Char × List Char)) (children : List HNode)
    (cs : List HNode) (h : firstChildFilename children = .ok none)
    (hcs : convertNodes children = .ok cs) :
    convertOne (HNode.elem ac_image_tag attrs children)
      = .ok [HNode.elem ac_image_tag attrs cs] := by
  simp [convertOne, h, hcs]

theorem convertOne_acimage_text (attrs : List (List Char × List Char)) (s : List Char)
    (ts : List HNode) :
    convertOne (HNode.elem ac_image_tag attrs (HNode.text s :: ts))
      = .error .attributeErrorNavigableString := by
  simp [convertOne, firstChildFilename]

/-- C1: the claim asserts the "should skip" hook defaults to not skipping so
that every visited page is persisted.  The code does the opposite:
`__should_skip_download` returns `True` unconditionally, `__dump_page` only
downloads when the hook answers `False`, and hence a traversal never changes
the state at all — whenever it completes, no page body has been persisted. -/
theorem claim1_should_skip_nothing_persisted :
    (∀ page_id last_modified, should_skip_download page_id last_modified = true)
    ∧ ∀ (api : ConfluenceApi) (cfg : ExporterCfg) (fuel src_id : Nat)
        (parents : List (List Char)) (st : TravState),
        dumpPage api cfg fuel src_id parents st = .ok st
        ∨ ∃ e, dumpPage api cfg fuel src_id parents st = .error e :=
  ⟨fun _ _ => rfl, fun api cfg => dumpPage_unchanged api cfg⟩

/-- C2: the claim asserts every visited identifier enters the seen-set before
recursion, so a cycle raises the duplicate-identifier `ExportException`.  In
the code the only insertion into the seen-set sits in `__download_page`, which
is never invoked (the skip hook always answers `True`), so on a self-loop
hierarchy (`apiCyc`: page 1 lists itself as its child) the traversal starting
from an empty seen-set exhausts every finite recursion depth instead of
raising the duplicate error. -/
theorem claim2_cycle_recursion_unbounded :
    ∀ (cfg : ExporterCfg) (fuel : Nat) (parents : List (List Char))
      (files : List (List Char × List Char)) (warns : List (List Char)),
      dumpPage apiCyc cfg fuel 1 parents ⟨[], files, warns⟩ = .error .nonTermination
      ∧ dumpPage apiCyc cfg fuel 1 parents ⟨[], files, warns⟩
          ≠ .error .exportDuplicatePageId := by
  intro cfg fuel parents files warns
  refine ⟨dumpPage_cyc cfg fuel parents files warns, ?_⟩
  rw [dumpPage_cyc cfg fuel parents files warns]
  simp

/-- C3: for every input containing `..` or `/`, `__sanitize_filename` returns
the input with every occurrence of `..` and then of `/` replaced by `_`, logs
one warning per triggered replacement, and its output contains neither `..`
nor `/`. -/
theorem claim3_sanitize_spec (s : List Char)
    (_h : containsSub dotdot s = true ∨ containsSub slashc s = true) :
    (sanitizeRun s).1 = replaceAll slashc uscore (replaceAll dotdot uscore s)
    ∧ containsSub dotdot (sanitizeRun s).1 = false
    ∧ containsSub slashc (sanitizeRun s).1 = false
    ∧ (sanitizeRun s).2
        = (if containsSub dotdot s then [dotdot] else [])
          ++ (if containsSub slashc (replaceAll dotdot uscore s) then [slashc] else []) := by
  refine ⟨?_, sanitize_no_dotdot s, sanitize_no_slash s, ?_⟩
  · exact sanitize_filename_eq s
  · rw [sanitizeRun_eq]

/-- Witness for C3 at the concrete title `a../b`. -/
theorem claim3_witness :
    (containsSub dotdot (chars ("a../b")) = true
      ∨ containsSub slashc (chars ("a../b")) = true)
    ∧ ((sanitizeRun (chars ("a../b"))).1
          = replaceAll slashc uscore (replaceAll dotdot uscore (chars ("a../b")))
      ∧ containsSub dotdot (sanitizeRun (chars ("a../b"))).1 = false
      ∧ containsSub slashc (sanitizeRun (chars ("a../b"))).1 = false
      ∧ (sanitizeRun (chars ("a../b"))).2
          = (if containsSub dotdot (chars ("a../b")) then [dotdot] else [])
            ++ (if containsSub slashc (replaceAll dotdot uscore (chars ("a../b")))
                then [slashc] else [])) :=
  ⟨Or.inl (by decide), claim3_sanitize_spec (chars ("a../b")) (Or.inl (by decide))⟩

/-- C4: the derived description names the document `index.html` for a non-leaf
page and `<title>.html` for a leaf page, the stored filename is its sanitized
form (equal to `index.html` itself in the non-leaf case), and the absolute
output path is the join of the output root, the sanitized ancestor chain in
order, and the sanitized filename. -/
theorem claim4_get_descr_paths :
    ∀ (out_dir : List Char) (page : PageData) (parents : List (List Char))
      (is_leaf_node : Bool),
      (get_descr out_dir page parents is_leaf_node).document_name
          = (if is_leaf_node then page.title ++ chars (".html") else chars ("index.html"))
      ∧ (get_descr out_dir page parents false).sanitized_filename = chars ("index.html")
      ∧ (get_descr out_dir page parents is_leaf_node).sanitized_filename
          = sanitize_filename ((get_descr out_dir page parents is_leaf_node).document_name)
      ∧ (get_descr out_dir page parents is_leaf_node).page_filename
          = ospath_join out_dir (parents.map sanitize_filename
              ++ [sanitize_filename
                    ((get_descr out_dir page parents is_leaf_node).document_name)]) := by
  intro out_dir page parents is_leaf_node
  refine ⟨?_, ?_, rfl, rfl⟩
  · cases is_leaf_node <;> rfl
  · show sanitize_filename (chars ("index") ++ chars (".html")) = chars ("index.html")
    decide

/-- C6 counterexample: the claim says the produced `img` carries exactly
`attachments/<filename>` as `src` and `alt`, and that a tag whose first child
has no filename attribute is left untouched.  For the filename `/x`,
`os.path.join` discards the `attachments` component, so the produced reference
is `/x`, which differs from `attachments//x`; and for a first child that is a
text node (which has no filename attribute), `child.get` raises the
`NavigableString` attribute error instead of leaving the tag untouched. -/
theorem claim6_counterexample :
    (convertNodes [HNode.elem ac_image_tag []
        [HNode.elem (chars ("ri:attachment")) [(ri_filename_key, chars ("/x"))] []]]
      = .ok [HNode.elem (chars ("img"))
          [(chars ("src"), chars ("/x")), (chars ("alt"), chars ("/x"))] [],
         HNode.elem (chars ("br")) [] []]
      ∧ chars ("/x") ≠ chars ("attachments/") ++ chars ("/x"))
    ∧ convertNodes [HNode.elem ac_image_tag [] [HNode.text (chars (" "))]]
        = .error .attributeErrorNavigableString :=
  ⟨⟨rfl, by decide⟩, rfl⟩

/-- C6 as amended: an `ac:image` whose first child is an element carrying a
filename that does not begin with `/` is replaced by an `img` whose `src` and
`alt` are both exactly `attachments/<filename>`, with a `br` element
immediately after it (when the filename begins with `/`, `os.path.join`
collapses the reference to the filename alone); an `ac:image` with no children,
or whose first child is an element without a filename attribute, stays in
place with its children still processed; an `ac:image` whose first child is a
text node makes the conversion pass raise the `NavigableString` attribute
error.  The `.ok` hypotheses on the surrounding nodes state that the rest of
the document raises no such error. -/
theorem claim6_acimage_rewrite :
    (∀ (attrs : List (List Char × List Char)) (children rest : List HNode)
        (url : List Char) (cs rs : List HNode),
        firstChildFilename children = .ok (some url) → url.head? ≠ some '/' →
        convertNodes children = .ok cs → convertNodes rest = .ok rs →
        convertNodes (HNode.elem ac_image_tag attrs children :: rest)
          = .ok (HNode.elem (chars ("img"))
              [(chars ("src"), attachment_folder_name ++ '/' :: url),
               (chars ("alt"), attachment_folder_name ++ '/' :: url)] []
            :: HNode.elem (chars ("br")) [] [] :: rs))
    ∧ (∀ (attrs : List (List Char × List Char)) (children rest : List HNode)
        (cs rs : List HNode),
        firstChildFilename children = .ok none →
        convertNodes children = .ok cs → convertNodes rest = .ok rs →
        convertNodes (HNode.elem ac_image_tag attrs children :: rest)
          = .ok (HNode.elem ac_image_tag attrs cs :: rs))
    ∧ (∀ (attrs : List (List Char × List Char)) (s : List Char) (ts rest : List HNode),
        convertNodes (HNode.elem ac_image_tag attrs (HNode.text s :: ts) :: rest)
          = .error .attributeErrorNavigableString) := by
  refine ⟨?_, ?_, ?_⟩
  · intro attrs children rest url cs rs h hs hcs hrs
    have h1 := convertOne_acimage_some attrs children url cs h hcs
    rw [ospath_join_attachments url hs] at h1
    rw [convertNodes_cons _ rest _ rs h1 hrs]
    rfl
  · intro attrs children rest cs rs h hcs hrs
    rw [convertNodes_cons _ rest _ rs (convertOne_acimage_none attrs children cs h hcs) hrs]
    rfl
  · intro attrs s ts rest
    exact convertNodes_cons_error _ rest _ (convertOne_acimage_text attrs s ts)

/-- Witness for C6: a document with filename `x.png`, one whose first child is
an attribute-less element, and one whose first child is a text node. -/
theorem claim6_witness :
    (firstChildFilename childW = .ok (some (chars ("x.png"))))
    ∧ ((chars ("x.png")).head? ≠ some '/')
    ∧ (convertNodes childW = .ok childW)
    ∧ (convertNodes ([] : List HNode) = .ok [])
    ∧ (convertNodes (HNode.elem ac_image_tag [] childW :: ([] : List HNode))
        = .ok [HNode.elem (chars ("img"))
            [(chars ("src"), attachment_folder_name ++ '/' :: chars ("x.png")),
             (chars ("alt"), attachment_folder_name ++ '/' :: chars ("x.png"))] [],
           HNode.elem (chars ("br")) [] []])
    ∧ (firstChildFilename [HNode.elem (chars ("ri:attachment")) [] []] = .ok none)
    ∧ (convertNodes (HNode.elem ac_image_tag []
          [HNode.elem (chars ("ri:attachment")) [] []] :: ([] : List HNode))
        = .ok [HNode.elem ac_image_tag [] [HNode.elem (chars ("ri:attachment")) [] []]])
    ∧ (convertNodes (HNode.elem ac_image_tag [] [HNode.text (chars (" "))] :: ([] : List HNode))
        = .error .attributeErrorNavigableString) :=
  ⟨rfl, by decide, rfl, rfl,
   claim6_acimage_rewrite.1 [] childW [] (chars ("x.png")) childW [] rfl (by decide) rfl rfl,
   rfl,
   claim6_acimage_rewrite.2.1 [] [HNode.elem (chars ("ri:attachment")) [] []] []
     [HNode.elem (chars ("ri:attachment")) [] []] [] rfl rfl rfl,
   claim6_acimage_rewrite.2.2 [] (chars (" ")) [] []⟩

/-- C7: the claim asserts that with no target space key the exporter is
constructed successfully and `dump()` runs `dump_all_spaces`.  In the code,
`__init__` evaluates `space.startswith("~")` on `None`, which raises an
attribute-lookup error, so construction fails; moreover every successful
construction yields a non-empty (`~`-prefixed) key, for which `dump()` takes
the single-space branch, so `dump_all_spaces` is unreachable. -/
theorem claim7_space_none_raises :
    exporter_init_space_key none = .error .attributeErrorNoneType
    ∧ ∀ s : List Char, ∃ key, exporter_init_space_key (some s) = .ok key
        ∧ dump_uses_all_spaces key = false := by
  refine ⟨rfl, fun s => ?_⟩
  by_cases h : s.head? = some '~'
  · refine ⟨s, by simp [exporter_init_space_key, h], ?_⟩
    cases s with
    | nil => simp at h
    | cons c t => rfl
  · exact ⟨'~' :: s, by simp [exporter_init_space_key, h], rfl⟩

/-- C8: in all-spaces mode, a response with zero spaces only logs the
configuration error and raises nothing, while reaching a space record without
a homepage raises the fatal `ExportException` naming its key. -/
theorem claim8_all_spaces_errors :
    (∀ (api : ConfluenceApi) (cfg : ExporterCfg) (fuel : Nat) (st : TravState),
        dump_all_spaces api cfg fuel ⟨0, []⟩ st
          = ([chars ("No spaces found in confluence. Please check credentials")], .ok st))
    ∧ ∀ (api : ConfluenceApi) (cfg : ExporterCfg) (fuel n : Nat)
        (pre rest : List SpaceRec) (key : List Char) (st st' : TravState),
        dumpSpaces api cfg fuel pre st = .ok st' →
        (dump_all_spaces api cfg fuel ⟨n, pre ++ ⟨key, none⟩ :: rest⟩ st).2
          = .error (.exportNoHomepage key) :=
  ⟨fun _ _ _ _ => rfl,
   fun api cfg fuel _ pre rest key st st' h =>
     dumpSpaces_append_noHomepage api cfg fuel key rest pre st st' h⟩

/-- Witness for C8: one well-formed space is processed, then a space without a
homepage raises. -/
theorem claim8_witness :
    (dumpSpaces apiOne cfgW 2 [⟨chars ("A"), some 1⟩] st0 = .ok st0)
    ∧ (dump_all_spaces apiOne cfgW 2
          ⟨2, [⟨chars ("A"), some 1⟩] ++ ⟨chars ("B"), none⟩ :: []⟩ st0).2
        = .error (.exportNoHomepage (chars ("B"))) :=
  ⟨rfl, claim8_all_spaces_errors.2 apiOne cfgW 2 2 [⟨chars ("A"), some 1⟩] []
    (chars ("B")) st0 st0 rfl⟩

/-- C9: `__sanitize_filename` is idempotent. -/
theorem claim9_sanitize_idempotent :
    ∀ s : List Char, sanitize_filename (sanitize_filename s) = sanitize_filename s :=
  sanitize_idem_core

/-- C10: `__download_page` always ends in a raise — the attribute-lookup error
on the undefined `self.__update_index` whenever the final statement is reached,
or the HTTP error raised earlier in the attachment loop — and by then the page
body file is already among the written files. -/
theorem claim10_download_page_always_raises :
    ∀ (api : ConfluenceApi) (cfg : ExporterCfg) (st : TravState) (page : PageData)
      (parents : List (List Char)) (is_leaf_node : Bool) (when_modified : List Char),
      ((download_page api cfg st page parents is_leaf_node when_modified).2
          = .error .attributeErrorUpdateIndex
        ∨ (download_page api cfg st page parents is_leaf_node when_modified).2
          = .error .httpStatusError)
      ∧ ((get_descr cfg.out_dir page parents is_leaf_node).page_filename, page.body)
          ∈ (download_page api cfg st page parents is_leaf_node when_modified).1.files := by
  intro api cfg st page parents is_leaf_node when_modified
  unfold download_page
  by_cases hna : cfg.no_attach = false
  · rw [if_pos hna]
    by_cases hab : (downloadAtts api.http_get cfg.scheme cfg.netloc
        (get_descr cfg.out_dir page parents is_leaf_node).page_output_dir
        (api.get_attachments_from_content page.id)).aborted = true
    · simp [hab]
    · simp [hab]
  · rw [if_neg hna]
    simp
